import Mathlib

/-
Verification of the XHSCOfSmartICE backend core, shallowly embedded in Lean 4.

The embedding covers:
  - the incremental extractor and filter loop of
    backend/xiaohongshu_scraper.py, method XHSScraper.search_and_scrape;
  - the scrape task registry of backend/scrape_manager.py, class ScrapeManager;
  - the browser session manager of backend/browser_manager.py, class BrowserManager.

Page interaction is abstracted as a source function from pass index to the
batch of candidate cards visible at that pass; the asynchronous runtime is
modelled by explicit state passing; Python exceptions are modelled with an
explicit result type where they matter.
-/

namespace XHSC

/-- Candidate post record, from data_models.XHSPost as the scraping loop uses it.
Only the fields that the search_and_scrape control flow reads are given
non-defaulted roles: note_id (dedup key), likes and is_video (filtering). -/
structure XHSPost where
  note_id : String
  title : String := ""
  likes : Nat := 0
  is_video : Bool := false
deriving Repr, DecidableEq

/-- Filter settings, from data_models.ScrapeFilter plus the skip_videos field
the scraper and the API read on it. -/
structure ScrapeFilter where
  min_likes : Nat := 0
  min_collects : Nat := 0
  min_comments : Nat := 0
  max_posts : Nat := 20
  skip_videos : Bool := false
deriving Repr, DecidableEq

/-- Mutable local variables of XHSScraper.search_and_scrape, lines 344 to 351. -/
structure ScrapeState where
  filtered_posts : List XHSPost := []
  seen_note_ids : List String := []
  total_scanned : Nat := 0
  videos_skipped : Nat := 0
  likes_filtered : Nat := 0
  scroll_count : Nat := 0
  no_new_posts_count : Nat := 0
  new_posts_this_scroll : Nat := 0
deriving Repr, DecidableEq

/-- Constant max_no_new_posts of search_and_scrape, line 351: stop after 3
consecutive passes with no new posts. -/
def max_no_new_posts : Nat := 3

/-- Inner for-loop of search_and_scrape, lines 460 to 503: process each card of
the currently visible batch, skipping ids already seen, classifying every new
card as video-skipped, low-likes or accepted, and breaking out as soon as the
accepted list reaches max_posts. -/
def process_cards (filters : ScrapeFilter) (st : ScrapeState) :
    List XHSPost → ScrapeState
  | [] => st
  | item :: rest =>
    if st.seen_note_ids.contains item.note_id then
      process_cards filters st rest
    else
      let st1 : ScrapeState :=
        { st with
          seen_note_ids := item.note_id :: st.seen_note_ids
          total_scanned := st.total_scanned + 1
          new_posts_this_scroll := st.new_posts_this_scroll + 1 }
      if filters.skip_videos && item.is_video then
        process_cards filters
          { st1 with videos_skipped := st1.videos_skipped + 1 } rest
      else if item.likes < filters.min_likes then
        process_cards filters
          { st1 with likes_filtered := st1.likes_filtered + 1 } rest
      else
        let st2 : ScrapeState :=
          { st1 with filtered_posts := st1.filtered_posts ++ [item] }
        if filters.max_posts ≤ st2.filtered_posts.length then st2
        else process_cards filters st2 rest

/-- Outcome of one iteration of the outer while-loop: either the loop exits
with the given state, or it scrolls and continues with the given state. -/
inductive PassResult where
  | stop (st : ScrapeState)
  | next (st : ScrapeState)
deriving Repr, DecidableEq

/-- One iteration of the outer while-loop of search_and_scrape, lines 354 to
527: the loop guard (quota reached), the cancellation check at the iteration
boundary, the batch processing, the quota re-check, and the stale-pass
bookkeeping with threshold max_no_new_posts. -/
def scrape_pass (filters : ScrapeFilter) (cancelled : Bool)
    (batch : List XHSPost) (st : ScrapeState) : PassResult :=
  if filters.max_posts ≤ st.filtered_posts.length then .stop st
  else if cancelled then .stop st
  else
    let st1 := process_cards filters { st with new_posts_this_scroll := 0 } batch
    if filters.max_posts ≤ st1.filtered_posts.length then .stop st1
    else if st1.new_posts_this_scroll = 0 then
      let st2 : ScrapeState :=
        { st1 with no_new_posts_count := st1.no_new_posts_count + 1 }
      if max_no_new_posts ≤ st2.no_new_posts_count then .stop st2
      else .next { st2 with scroll_count := st2.scroll_count + 1 }
    else
      .next { st1 with no_new_posts_count := 0, scroll_count := st1.scroll_count + 1 }

/-- Fuel-indexed iteration of scrape_pass. The pass index k feeds the cancel
predicate (the flag as observed at the boundary of pass k) and the source (the
batch the page shows at pass k). The fuel is an artifact of the embedding;
termination theorems below show that enough fuel always exists for sources
backed by a finite batch list. -/
def run_loop (filters : ScrapeFilter) (cancelled : Nat → Bool)
    (source : Nat → List XHSPost) (k : Nat) (st : ScrapeState) :
    Nat → Option ScrapeState
  | 0 => none
  | fuel + 1 =>
    match scrape_pass filters (cancelled k) (source k) st with
    | .stop out => some out
    | .next st1 => run_loop filters cancelled source (k + 1) st1 fuel

/-- A source backed by a finite list of batches: pass k sees batch k, and every
pass beyond the end of the list sees an empty batch (the page stops yielding
anything new). -/
def source_of (batches : List (List XHSPost)) (k : Nat) : List XHSPost :=
  batches.getD k []

/-- XHSScraper.search_and_scrape in closed form over a finite batch source:
runs the loop from the initial state and returns the filtered_posts list, which
is what the Python method returns on every exit path (line 536). The fuel
batches.length + 3 is sufficient by theorem run_loop_total below. -/
def search_and_scrape (filters : ScrapeFilter) (cancelled : Nat → Bool)
    (batches : List (List XHSPost)) : List XHSPost :=
  match run_loop filters cancelled (source_of batches) 0 {} (batches.length + 3) with
  | some out => out.filtered_posts
  | none => []

/-- Filter predicate of the loop, lines 486 to 494: an item is accepted exactly
when it is not skipped as a video and its likes are not below min_likes. -/
def passes_filter (filters : ScrapeFilter) (p : XHSPost) : Bool :=
  !(filters.skip_videos && p.is_video) && !(p.likes < filters.min_likes)

/-- Classification predicate for the video-skip branch, line 486. -/
def video_skipped (filters : ScrapeFilter) (p : XHSPost) : Bool :=
  filters.skip_videos && p.is_video

/-- Classification predicate for the low-likes branch, line 490. -/
def low_likes (filters : ScrapeFilter) (p : XHSPost) : Bool :=
  !(filters.skip_videos && p.is_video) && (p.likes < filters.min_likes)

/-- First-occurrence deduplication of a candidate stream by note_id, relative
to an already-seen id list; mirrors the seen_note_ids discipline of the loop. -/
def dedup_go (seen : List String) : List XHSPost → List XHSPost
  | [] => []
  | p :: rest =>
    if seen.contains p.note_id then dedup_go seen rest
    else p :: dedup_go (p.note_id :: seen) rest

/-- Seen-id list after scanning a candidate stream, threaded the same way the
loop threads seen_note_ids. -/
def seen_after (seen : List String) : List XHSPost → List String
  | [] => seen
  | p :: rest =>
    if seen.contains p.note_id then seen_after seen rest
    else seen_after (p.note_id :: seen) rest

/-- First-occurrence deduplication of a whole stream by note_id. -/
def dedup_by_id (l : List XHSPost) : List XHSPost :=
  dedup_go [] l

/-- State carried by a pass outcome, whether the loop stops or continues. -/
def PassResult.state : PassResult → ScrapeState
  | .stop st => st
  | .next st => st

/-- Well-formedness of the accepted list: accepted note ids are pairwise
distinct and every accepted id has been recorded as seen. -/
def FilteredWF (st : ScrapeState) : Prop :=
  (st.filtered_posts.map XHSPost.note_id).Nodup ∧
  ∀ p ∈ st.filtered_posts, p.note_id ∈ st.seen_note_ids

/-- Accounting identity of the loop counters: every scanned candidate is
classified exactly once, as accepted, video-skipped or low-likes. -/
def Accounted (st : ScrapeState) : Prop :=
  st.total_scanned =
    st.filtered_posts.length + st.videos_skipped + st.likes_filtered

/-- A cancel predicate that never fires. -/
def no_cancel : Nat → Bool := fun _ => false

/-- Scenario B of the spec: min_likes 100, max_count 3, no video skipping. -/
def scenB_filters : ScrapeFilter := { min_likes := 100, max_posts := 3 }

/-- Scenario B source: one pass showing items with likes 50, 150, 200, 30,
300, 400. -/
def scenB_batches : List (List XHSPost) :=
  [[{ note_id := "a", likes := 50 }, { note_id := "b", likes := 150 },
    { note_id := "c", likes := 200 }, { note_id := "d", likes := 30 },
    { note_id := "e", likes := 300 }, { note_id := "f", likes := 400 }]]

/-- Final loop state of scenario B. -/
def scenB_out : ScrapeState :=
  (run_loop scenB_filters no_cancel (source_of scenB_batches) 0 {} 4).getD {}

/-- Filter used by the distinguishing pair of runs below: min_likes 10 rejects
every shown item. -/
def pairX_filters : ScrapeFilter := { min_likes := 10, max_posts := 5 }

/-- A source whose two items are both rejected by pairX_filters. -/
def pairX_batches : List (List XHSPost) :=
  [[{ note_id := "a", likes := 0 }, { note_id := "b", likes := 1 }]]

/-! Association-list model of Python dict state owned by the managers. -/

/-- Dict lookup. -/
def alist_get [DecidableEq κ] : List (κ × α) → κ → Option α
  | [], _ => none
  | (k, v) :: rest, key => if k = key then some v else alist_get rest key

/-- Dict assignment: overwrites the value under an existing key, otherwise
appends a fresh entry. -/
def alist_set [DecidableEq κ] : List (κ × α) → κ → α → List (κ × α)
  | [], key, v => [(key, v)]
  | (k, w) :: rest, key, v =>
    if k = key then (key, v) :: rest else (k, w) :: alist_set rest key v

/-- Dict deletion: removes the entry under the key when present. -/
def alist_del [DecidableEq κ] : List (κ × α) → κ → List (κ × α)
  | [], _ => []
  | (k, w) :: rest, key =>
    if k = key then alist_del rest key else (k, w) :: alist_del rest key

/-! Scrape task registry, from backend/scrape_manager.py. -/

/-- Result of a Python call that either returns a value or raises. -/
inductive PyResult (α : Type) where
  | ok (val : α)
  | raised
deriving Repr, DecidableEq

/-- A log callback registered on a task, abstracted to an identifier plus
whether invoking it raises an exception. -/
structure LogCallback where
  cb_id : Nat
  fails : Bool := false
deriving Repr, DecidableEq

/-- Invoking one callback with a message: a non-failing callback receives the
pair (its id, the message); a failing callback raises. -/
def call_log_callback (cb : LogCallback) (msg : String) :
    PyResult (Nat × String) :=
  if cb.fails then .raised else .ok (cb.cb_id, msg)

/-- For-loop body of ScrapeManager.send_log, lines 133 to 137: each callback is
invoked inside its own try-except, so a raising callback is caught and logged
and the loop moves on to the next callback. -/
def deliver_logs (msg : String) : List LogCallback → PyResult (List (Nat × String))
  | [] => .ok []
  | cb :: rest =>
    let received :=
      match call_log_callback cb msg with
      | .ok r => [r]
      | .raised => []
    match deliver_logs msg rest with
    | .ok rs => .ok (received ++ rs)
    | .raised => .raised

/-- ActiveScrape dataclass of scrape_manager.py, lines 17 to 27. The asyncio
task handle is abstracted to whether one is attached and whether it is done. -/
structure ActiveScrape where
  task_id : String
  account_id : Nat
  keyword : String
  started_at : String := ""
  status : String := "running"
  has_asyncio_task : Bool := false
  asyncio_task_done : Bool := false
  cancel_requested : Bool := false
  db_task_id : Option Nat := none
deriving Repr, DecidableEq

/-- Mutable state of ScrapeManager, lines 33 to 36. Background database tasks
are external side effects and are not part of the registry state. -/
structure ScrapeManager where
  active_scrapes : List (String × ActiveScrape) := []
  log_callbacks : List (String × List LogCallback) := []
deriving Repr, DecidableEq

/-- ScrapeManager.create_scrape, lines 43 to 59: builds a fresh running scrape,
stores it under task_id, resets the callback list for task_id, and returns the
scrape. There is no check for an existing entry under task_id. -/
def create_scrape (m : ScrapeManager) (task_id : String) (account_id : Nat)
    (keyword : String) (started_at : String) : ScrapeManager × ActiveScrape :=
  let scrape : ActiveScrape :=
    { task_id := task_id, account_id := account_id, keyword := keyword,
      started_at := started_at, status := "running" }
  ({ active_scrapes := alist_set m.active_scrapes task_id scrape,
     log_callbacks := alist_set m.log_callbacks task_id [] }, scrape)

/-- Result of ScrapeManager.cancel_scrape: the updated registry, the returned
boolean, and whether cancel was invoked on the attached asyncio task. -/
structure CancelResult where
  manager : ScrapeManager
  returned : Bool
  issued_task_cancel : Bool
deriving Repr, DecidableEq

/-- ScrapeManager.cancel_scrape, lines 70 to 80: unknown task ids return false;
otherwise the cancel_requested flag is set and, when an asyncio task is
attached and not yet done, cancel is invoked on that task as well. -/
def cancel_scrape (m : ScrapeManager) (task_id : String) : CancelResult :=
  match alist_get m.active_scrapes task_id with
  | none => { manager := m, returned := false, issued_task_cancel := false }
  | some scrape =>
    let scrape1 := { scrape with cancel_requested := true }
    { manager :=
        { m with active_scrapes := alist_set m.active_scrapes task_id scrape1 },
      returned := true,
      issued_task_cancel := scrape.has_asyncio_task && !scrape.asyncio_task_done }

/-- ScrapeManager.is_cancelled, lines 82 to 85. -/
def is_cancelled (m : ScrapeManager) (task_id : String) : Bool :=
  match alist_get m.active_scrapes task_id with
  | some scrape => scrape.cancel_requested
  | none => false

/-- ScrapeManager.send_log, lines 130 to 137: when the task has a callback list
every callback in it is invoked with the message, each inside its own
try-except; when the task is unknown nothing happens. -/
def send_log (m : ScrapeManager) (task_id : String) (msg : String) :
    PyResult (List (Nat × String)) :=
  match alist_get m.log_callbacks task_id with
  | none => .ok []
  | some cbs => deliver_logs msg cbs

/-! Browser session manager, from backend/browser_manager.py. -/

/-- Outcome of launching a persistent browser context, abstracting the
environment behaviour of playwright chromium.launch_persistent_context: either
the launch succeeds, yielding opaque context and page handles, or it raises. -/
inductive LaunchOutcome where
  | success (ctx : Nat) (page : Nat)
  | failure
deriving Repr, DecidableEq

/-- Outcome of awaiting context.close() under asyncio.wait_for: it finishes in
time, times out, or raises some other exception. -/
inductive CloseOutcome where
  | graceful
  | timedOut
  | errored
deriving Repr, DecidableEq

/-- Mutable state of BrowserManager, lines 22 to 28: the contexts and pages
dicts keyed by account id, the database session-id dict, and the playwright
running flag. -/
structure BrowserManager where
  contexts : List (Nat × Nat) := []
  pages : List (Nat × Nat) := []
  session_ids : List (Nat × Nat) := []
  playwright_started : Bool := false
deriving Repr, DecidableEq

/-- Result of BrowserManager.open_browser: the updated manager and the returned
boolean. -/
structure OpenResult where
  manager : BrowserManager
  returned : Bool
deriving Repr, DecidableEq

/-- BrowserManager.open_browser, lines 61 to 109: starts playwright when
needed, rejects an account whose context is already open, rejects an unknown
account, and otherwise launches a context, opens the start page and records
both under the account id. accounts is the account-store collaborator and
launch the environment outcome of the browser launch. -/
def open_browser (accounts : List Nat) (launch : LaunchOutcome)
    (m : BrowserManager) (account_id : Nat) : OpenResult :=
  let m0 := if m.playwright_started then m else { m with playwright_started := true }
  if (alist_get m0.contexts account_id).isSome then
    { manager := m0, returned := false }
  else if !(accounts.contains account_id) then
    { manager := m0, returned := false }
  else
    match launch with
    | .failure => { manager := m0, returned := false }
    | .success ctx page =>
      { manager :=
          { m0 with
            contexts := alist_set m0.contexts account_id ctx
            pages := alist_set m0.pages account_id page },
        returned := true }

/-- Result of BrowserManager.close_browser: the updated manager, the returned
boolean, and whether the forced OS-level kill path was taken. -/
structure CloseResult where
  manager : BrowserManager
  returned : Bool
  force_killed : Bool
deriving Repr, DecidableEq

/-- Database effect of BrowserManager track_browser_close, lines 414 to 453:
everything is inside a try-except, so it never raises; when the database calls
succeed the tracked session id for the account is dropped. -/
def track_browser_close (db_ok : Bool) (m : BrowserManager)
    (account_id : Nat) : BrowserManager :=
  if db_ok then { m with session_ids := alist_del m.session_ids account_id }
  else m

/-- BrowserManager.close_browser, lines 161 to 192: returns false with no side
effect when no context is tracked for the account; otherwise tries the
graceful close, falls back to the forced OS-level kill on timeout or error,
records the close in the database, and always removes the context and page
entries before returning true. Every failure branch is caught, so the call
never raises. -/
def close_browser (outcome : CloseOutcome) (db_ok : Bool)
    (m : BrowserManager) (account_id : Nat) : CloseResult :=
  if !(alist_get m.contexts account_id).isSome then
    { manager := m, returned := false, force_killed := false }
  else
    let forced :=
      match outcome with
      | .graceful => false
      | .timedOut => true
      | .errored => true
    let m1 := track_browser_close db_ok m account_id
    { manager :=
        { m1 with
          contexts := alist_del m1.contexts account_id
          pages := alist_del m1.pages account_id },
      returned := true,
      force_killed := forced }

/-- Registry state that already holds a completed task under id t1, with one
registered callback. -/
def dup_registry : ScrapeManager :=
  { active_scrapes := [("t1",
      { task_id := "t1", account_id := 7, keyword := "old",
        status := "completed" })],
    log_callbacks := [("t1", [{ cb_id := 1 }])] }

/-- Registry state with a running task whose asyncio task is attached and not
yet done. -/
def live_registry : ScrapeManager :=
  { active_scrapes := [("t1",
      { task_id := "t1", account_id := 1, keyword := "kw", status := "running",
        has_asyncio_task := true, asyncio_task_done := false })],
    log_callbacks := [("t1", [])] }

/-- Registry state with three callbacks on task t1, the middle one failing. -/
def cb_registry : ScrapeManager :=
  { active_scrapes := [],
    log_callbacks := [("t1",
      [{ cb_id := 1 }, { cb_id := 2, fails := true }, { cb_id := 3 }])] }

/-- Browser manager with one open session, for account 1. -/
def one_session_manager : BrowserManager :=
  { contexts := [(1, 10)], pages := [(1, 20)], session_ids := [(1, 30)],
    playwright_started := true }

/-- Browser manager with no open sessions. -/
def empty_browser_manager : BrowserManager :=
  { contexts := [], pages := [], session_ids := [], playwright_started := true }

/-! General lemmas about the dict model. -/

theorem alist_get_set_self [DecidableEq κ] (l : List (κ × α)) (k : κ) (v : α) :
    alist_get (alist_set l k v) k = some v := by
  induction l with
  | nil => simp [alist_set, alist_get]
  | cons kv rest ih =>
    obtain ⟨k1, w⟩ := kv
    by_cases h : k1 = k
    · subst h; simp [alist_set, alist_get]
    · simp [alist_set, alist_get, h, ih]

theorem alist_get_del_self [DecidableEq κ] (l : List (κ × α)) (k : κ) :
    alist_get (alist_del l k) k = none := by
  induction l with
  | nil => simp [alist_del, alist_get]
  | cons kv rest ih =>
    obtain ⟨k1, w⟩ := kv
    by_cases h : k1 = k
    · simp [alist_del, h, ih]
    · simp [alist_del, alist_get, h, ih]

theorem alist_set_mem_keys [DecidableEq κ] (l : List (κ × α)) (k : κ) (v : α)
    (x : κ) :
    x ∈ (alist_set l k v).map Prod.fst ↔ x ∈ l.map Prod.fst ∨ x = k := by
  induction l with
  | nil => simp [alist_set]
  | cons kv rest ih =>
    obtain ⟨k1, w⟩ := kv
    by_cases h : k1 = k
    · subst h; simp [alist_set]; tauto
    · simp [alist_set, h, ih]; tauto

theorem alist_set_keys_nodup [DecidableEq κ] (l : List (κ × α)) (k : κ) (v : α)
    (h : (l.map Prod.fst).Nodup) : ((alist_set l k v).map Prod.fst).Nodup := by
  induction l with
  | nil => simp [alist_set]
  | cons kv rest ih =>
    obtain ⟨k1, w⟩ := kv
    simp only [List.map_cons, List.nodup_cons] at h
    by_cases hk : k1 = k
    · subst hk
      have hset : alist_set ((k1, w) :: rest) k1 v = (k1, v) :: rest := by
        simp [alist_set]
      rw [hset, List.map_cons, List.nodup_cons]
      exact h
    · simp only [alist_set, if_neg hk, List.map_cons, List.nodup_cons]
      refine ⟨?_, ih h.2⟩
      intro hmem
      rcases (alist_set_mem_keys rest k v k1).mp hmem with h1 | h1
      · exact h.1 h1
      · exact hk h1

/-! Basic lemmas about the inner card-processing loop. -/

theorem contains_false_not_mem {l : List String} {a : String}
    (h : l.contains a = false) : a ∉ l := by
  simpa using h

theorem contains_true_mem {l : List String} {a : String}
    (h : l.contains a = true) : a ∈ l := by
  simpa using h

theorem process_cards_nil (f : ScrapeFilter) (st : ScrapeState) :
    process_cards f st [] = st := rfl

theorem process_cards_seen (f : ScrapeFilter) (st : ScrapeState)
    (item : XHSPost) (rest : List XHSPost)
    (h : st.seen_note_ids.contains item.note_id = true) :
    process_cards f st (item :: rest) = process_cards f st rest := by
  simp only [process_cards, h, if_true]

theorem process_cards_length_le (f : ScrapeFilter) (b : List XHSPost) :
    ∀ st : ScrapeState, st.filtered_posts.length < f.max_posts →
      (process_cards f st b).filtered_posts.length ≤ f.max_posts := by
  induction b with
  | nil => intro st h; exact Nat.le_of_lt h
  | cons item rest ih =>
    intro st h
    by_cases hseen : st.seen_note_ids.contains item.note_id
    · rw [process_cards_seen f st item rest hseen]
      exact ih st h
    · rw [Bool.not_eq_true] at hseen
      by_cases hvid : (f.skip_videos && item.is_video) = true
      · simp only [process_cards, hseen, Bool.false_eq_true, if_false, hvid,
          if_true]
        exact ih _ h
      · by_cases hlow : item.likes < f.min_likes
        · simp only [process_cards, hseen, Bool.false_eq_true, if_false, hvid,
            hlow, if_true]
          exact ih _ h
        · by_cases hq : f.max_posts ≤ st.filtered_posts.length + 1
          · simp only [process_cards, hseen, Bool.false_eq_true, if_false,
              hvid, hlow, List.length_append, List.length_cons,
              List.length_nil, Nat.zero_add, hq, if_true]
            omega
          · simp only [process_cards, hseen, Bool.false_eq_true, if_false,
              hvid, hlow, List.length_append, List.length_cons,
              List.length_nil, Nat.zero_add, hq, if_false]
            apply ih
            simp only [List.length_append, List.length_cons, List.length_nil,
              Nat.zero_add]
            omega

theorem process_cards_filtered_mono (f : ScrapeFilter) (b : List XHSPost) :
    ∀ st : ScrapeState, ∃ t,
      (process_cards f st b).filtered_posts = st.filtered_posts ++ t := by
  induction b with
  | nil => intro st; exact ⟨[], by simp [process_cards_nil]⟩
  | cons item rest ih =>
    intro st
    by_cases hseen : st.seen_note_ids.contains item.note_id
    · rw [process_cards_seen f st item rest hseen]
      exact ih st
    · rw [Bool.not_eq_true] at hseen
      by_cases hvid : (f.skip_videos && item.is_video) = true
      · simp only [process_cards, hseen, Bool.false_eq_true, if_false, hvid,
          if_true]
        exact ih _
      · by_cases hlow : item.likes < f.min_likes
        · simp only [process_cards, hseen, Bool.false_eq_true, if_false, hvid,
            hlow, if_true]
          exact ih _
        · by_cases hq : f.max_posts ≤ st.filtered_posts.length + 1
          · refine ⟨[item], ?_⟩
            simp only [process_cards, hseen, Bool.false_eq_true, if_false,
              hvid, hlow, List.length_append, List.length_cons,
              List.length_nil, Nat.zero_add, hq, if_true]
          · obtain ⟨t0, ht0⟩ := ih
              { st with
                filtered_posts := st.filtered_posts ++ [item]
                seen_note_ids := item.note_id :: st.seen_note_ids
                total_scanned := st.total_scanned + 1
                new_posts_this_scroll := st.new_posts_this_scroll + 1 }
            refine ⟨[item] ++ t0, ?_⟩
            simp only [process_cards, hseen, Bool.false_eq_true, if_false,
              hvid, hlow, List.length_append, List.length_cons,
              List.length_nil, Nat.zero_add, hq, if_false]
            rw [ht0, List.append_assoc]

theorem process_cards_wf (f : ScrapeFilter) (b : List XHSPost) :
    ∀ st : ScrapeState, FilteredWF st → FilteredWF (process_cards f st b) := by
  induction b with
  | nil => intro st h; exact h
  | cons item rest ih =>
    intro st h
    by_cases hseen : st.seen_note_ids.contains item.note_id
    · rw [process_cards_seen f st item rest hseen]
      exact ih st h
    · rw [Bool.not_eq_true] at hseen
      have hnotmem : item.note_id ∉ st.seen_note_ids :=
        contains_false_not_mem hseen
      have hgrow : ∀ q : XHSPost, q ∈ st.filtered_posts →
          q.note_id ∈ item.note_id :: st.seen_note_ids := by
        intro q hq
        exact List.mem_cons_of_mem _ (h.2 q hq)
      have hnew : item.note_id ∉ st.filtered_posts.map XHSPost.note_id := by
        intro hmem
        obtain ⟨q, hq, hqid⟩ := List.mem_map.mp hmem
        exact hnotmem (hqid ▸ h.2 q hq)
      have hwfacc : FilteredWF
          { st with
            filtered_posts := st.filtered_posts ++ [item]
            seen_note_ids := item.note_id :: st.seen_note_ids
            total_scanned := st.total_scanned + 1
            new_posts_this_scroll := st.new_posts_this_scroll + 1 } := by
        constructor
        · simp only [List.map_append, List.map_cons, List.map_nil]
          simp [List.nodup_append, h.1, hnew]
        · intro q hq
          rcases List.mem_append.mp hq with hq1 | hq1
          · exact hgrow q hq1
          · rw [List.mem_singleton.mp hq1]
            exact List.mem_cons_self _ _
      by_cases hvid : (f.skip_videos && item.is_video) = true
      · simp only [process_cards, hseen, Bool.false_eq_true, if_false, hvid,
          if_true]
        exact ih _ ⟨h.1, hgrow⟩
      · by_cases hlow : item.likes < f.min_likes
        · simp only [process_cards, hseen, Bool.false_eq_true, if_false, hvid,
            hlow, if_true]
          exact ih _ ⟨h.1, hgrow⟩
        · by_cases hq : f.max_posts ≤ st.filtered_posts.length + 1
          · simp only [process_cards, hseen, Bool.false_eq_true, if_false,
              hvid, hlow, List.length_append, List.length_cons,
              List.length_nil, Nat.zero_add, hq, if_true]
            exact hwfacc
          · simp only [process_cards, hseen, Bool.false_eq_true, if_false,
              hvid, hlow, List.length_append, List.length_cons,
              List.length_nil, Nat.zero_add, hq, if_false]
            exact ih _ hwfacc

theorem process_cards_accounted (f : ScrapeFilter) (b : List XHSPost) :
    ∀ st : ScrapeState, Accounted st → Accounted (process_cards f st b) := by
  induction b with
  | nil => intro st h; exact h
  | cons item rest ih =>
    intro st h
    by_cases hseen : st.seen_note_ids.contains item.note_id
    · rw [process_cards_seen f st item rest hseen]
      exact ih st h
    · rw [Bool.not_eq_true] at hseen
      unfold Accounted at h
      by_cases hvid : (f.skip_videos && item.is_video) = true
      · simp only [process_cards, hseen, Bool.false_eq_true, if_false, hvid,
          if_true]
        apply ih
        unfold Accounted
        simp only
        omega
      · by_cases hlow : item.likes < f.min_likes
        · simp only [process_cards, hseen, Bool.false_eq_true, if_false, hvid,
            hlow, if_true]
          apply ih
          unfold Accounted
          simp only
          omega
        · by_cases hq : f.max_posts ≤ st.filtered_posts.length + 1
          · simp only [process_cards, hseen, Bool.false_eq_true, if_false,
              hvid, hlow, List.length_append, List.length_cons,
              List.length_nil, Nat.zero_add, hq, if_true]
            unfold Accounted
            simp only [List.length_append, List.length_cons, List.length_nil]
            omega
          · simp only [process_cards, hseen, Bool.false_eq_true, if_false,
              hvid, hlow, List.length_append, List.length_cons,
              List.length_nil, Nat.zero_add, hq, if_false]
            apply ih
            unfold Accounted
            simp only [List.length_append, List.length_cons, List.length_nil]
            omega

/-! Lemmas about one pass of the outer loop. -/

theorem scrape_pass_quota_stop (f : ScrapeFilter) (c : Bool)
    (b : List XHSPost) (st : ScrapeState)
    (h : f.max_posts ≤ st.filtered_posts.length) :
    scrape_pass f c b st = .stop st := by
  simp only [scrape_pass, h, if_true]

theorem scrape_pass_cancel_stop (f : ScrapeFilter) (b : List XHSPost)
    (st : ScrapeState) (h : ¬ f.max_posts ≤ st.filtered_posts.length) :
    scrape_pass f true b st = .stop st := by
  simp only [scrape_pass, h, if_true, if_false]

/-- Case analysis on one pass: either the loop exits before touching the page
(quota already reached, or cancellation observed at the boundary) with the
state untouched, or the state of the outcome agrees with the result of
processing the whole visible batch on every field the invariants mention. -/
theorem scrape_pass_cases (f : ScrapeFilter) (c : Bool) (b : List XHSPost)
    (st : ScrapeState) :
    (scrape_pass f c b st).state = st ∨
    (st.filtered_posts.length < f.max_posts ∧
      ∃ st1, st1 = process_cards f { st with new_posts_this_scroll := 0 } b ∧
        (scrape_pass f c b st).state.filtered_posts = st1.filtered_posts ∧
        (scrape_pass f c b st).state.seen_note_ids = st1.seen_note_ids ∧
        (scrape_pass f c b st).state.total_scanned = st1.total_scanned ∧
        (scrape_pass f c b st).state.videos_skipped = st1.videos_skipped ∧
        (scrape_pass f c b st).state.likes_filtered = st1.likes_filtered) := by
  by_cases hq : f.max_posts ≤ st.filtered_posts.length
  · left
    rw [scrape_pass_quota_stop f c b st hq]
    rfl
  · by_cases hc : c = true
    · left
      subst hc
      rw [scrape_pass_cancel_stop f b st hq]
      rfl
    · right
      refine ⟨Nat.lt_of_not_le hq, process_cards f { st with new_posts_this_scroll := 0 } b, rfl, ?_⟩
      rw [Bool.not_eq_true] at hc
      simp only [scrape_pass, hq, if_false, hc, Bool.false_eq_true]
      by_cases h1 : f.max_posts ≤
          (process_cards f { st with new_posts_this_scroll := 0 } b).filtered_posts.length
      · simp only [h1, if_true, PassResult.state]
        exact ⟨trivial, trivial, trivial, trivial, trivial⟩
      · simp only [h1, if_false]
        by_cases h2 : (process_cards f { st with new_posts_this_scroll := 0 } b).new_posts_this_scroll = 0
        · simp only [h2, if_true]
          by_cases h3 : max_no_new_posts ≤
              (process_cards f { st with new_posts_this_scroll := 0 } b).no_new_posts_count + 1
          · simp only [h3, if_true, PassResult.state]
            exact ⟨trivial, trivial, trivial, trivial, trivial⟩
          · simp only [h3, if_false, PassResult.state]
            exact ⟨trivial, trivial, trivial, trivial, trivial⟩
        · simp only [h2, if_false, PassResult.state]
          exact ⟨trivial, trivial, trivial, trivial, trivial⟩

theorem scrape_pass_length_le (f : ScrapeFilter) (c : Bool) (b : List XHSPost)
    (st : ScrapeState) (h : st.filtered_posts.length ≤ f.max_posts) :
    (scrape_pass f c b st).state.filtered_posts.length ≤ f.max_posts := by
  rcases scrape_pass_cases f c b st with heq | ⟨hlt, st1, hdef, hfe, _⟩
  · rw [heq]; exact h
  · rw [hfe, hdef]
    exact process_cards_length_le f b _ hlt

theorem scrape_pass_wf (f : ScrapeFilter) (c : Bool) (b : List XHSPost)
    (st : ScrapeState) (h : FilteredWF st) :
    FilteredWF (scrape_pass f c b st).state := by
  rcases scrape_pass_cases f c b st with heq | ⟨hlt, st1, hdef, hfe, hse, _⟩
  · rw [heq]; exact h
  · have h1 : FilteredWF st1 := hdef ▸ process_cards_wf f b _ h
    exact ⟨hfe ▸ h1.1, fun p hp => hse ▸ h1.2 p (hfe ▸ hp)⟩

theorem scrape_pass_accounted (f : ScrapeFilter) (c : Bool) (b : List XHSPost)
    (st : ScrapeState) (h : Accounted st) :
    Accounted (scrape_pass f c b st).state := by
  rcases scrape_pass_cases f c b st with heq | ⟨hlt, st1, hdef, hfe, hse, hte, hve, hle⟩
  · rw [heq]; exact h
  · have h1 : Accounted st1 := hdef ▸ process_cards_accounted f b _ h
    unfold Accounted at h1 ⊢
    rw [hfe, hte, hve, hle]
    exact h1

theorem scrape_pass_filtered_mono (f : ScrapeFilter) (c : Bool)
    (b : List XHSPost) (st : ScrapeState) :
    ∃ t, (scrape_pass f c b st).state.filtered_posts = st.filtered_posts ++ t := by
  rcases scrape_pass_cases f c b st with heq | ⟨hlt, st1, hdef, hfe, _⟩
  · exact ⟨[], by rw [heq]; simp⟩
  · obtain ⟨t, ht⟩ := process_cards_filtered_mono f b { st with new_posts_this_scroll := 0 }
    exact ⟨t, by rw [hfe, hdef, ht]⟩

/-! Lemmas about the fuelled outer loop. -/

theorem run_loop_inv (f : ScrapeFilter) (c : Nat → Bool)
    (src : Nat → List XHSPost) (P : ScrapeState → Prop)
    (hP : ∀ (c1 : Bool) (b : List XHSPost) (st : ScrapeState),
      P st → P (scrape_pass f c1 b st).state) :
    ∀ (fuel k : Nat) (st out : ScrapeState),
      P st → run_loop f c src k st fuel = some out → P out := by
  intro fuel
  induction fuel with
  | zero => intro k st out _ hrun; simp [run_loop] at hrun
  | succ n ih =>
    intro k st out hst hrun
    unfold run_loop at hrun
    cases hp : scrape_pass f (c k) (src k) st with
    | stop out1 =>
      rw [hp] at hrun
      simp only [Option.some.injEq] at hrun
      have := hP (c k) (src k) st hst
      rw [hp] at this
      exact hrun ▸ this
    | next st1 =>
      rw [hp] at hrun
      have := hP (c k) (src k) st hst
      rw [hp] at this
      exact ih (k + 1) st1 out this hrun

theorem run_loop_length_le (f : ScrapeFilter) (c : Nat → Bool)
    (src : Nat → List XHSPost) (fuel k : Nat) (st out : ScrapeState)
    (h : st.filtered_posts.length ≤ f.max_posts)
    (hrun : run_loop f c src k st fuel = some out) :
    out.filtered_posts.length ≤ f.max_posts :=
  run_loop_inv f c src (fun s => s.filtered_posts.length ≤ f.max_posts)
    (fun c1 b s hs => scrape_pass_length_le f c1 b s hs) fuel k st out h hrun

theorem run_loop_wf (f : ScrapeFilter) (c : Nat → Bool)
    (src : Nat → List XHSPost) (fuel k : Nat) (st out : ScrapeState)
    (h : FilteredWF st) (hrun : run_loop f c src k st fuel = some out) :
    FilteredWF out :=
  run_loop_inv f c src FilteredWF
    (fun c1 b s hs => scrape_pass_wf f c1 b s hs) fuel k st out h hrun

theorem run_loop_accounted (f : ScrapeFilter) (c : Nat → Bool)
    (src : Nat → List XHSPost) (fuel k : Nat) (st out : ScrapeState)
    (h : Accounted st) (hrun : run_loop f c src k st fuel = some out) :
    Accounted out :=
  run_loop_inv f c src Accounted
    (fun c1 b s hs => scrape_pass_accounted f c1 b s hs) fuel k st out h hrun

theorem run_loop_filtered_mono (f : ScrapeFilter) (c : Nat → Bool)
    (src : Nat → List XHSPost) :
    ∀ (fuel k : Nat) (st out : ScrapeState),
      run_loop f c src k st fuel = some out →
      ∃ t, out.filtered_posts = st.filtered_posts ++ t := by
  intro fuel
  induction fuel with
  | zero => intro k st out hrun; simp [run_loop] at hrun
  | succ n ih =>
    intro k st out hrun
    unfold run_loop at hrun
    cases hp : scrape_pass f (c k) (src k) st with
    | stop out1 =>
      rw [hp] at hrun
      simp only [Option.some.injEq] at hrun
      obtain ⟨t, ht⟩ := scrape_pass_filtered_mono f (c k) (src k) st
      rw [hp] at ht
      simp only [PassResult.state] at ht
      exact ⟨t, hrun ▸ ht⟩
    | next st1 =>
      rw [hp] at hrun
      obtain ⟨t1, ht1⟩ := ih (k + 1) st1 out hrun
      obtain ⟨t0, ht0⟩ := scrape_pass_filtered_mono f (c k) (src k) st
      rw [hp] at ht0
      simp only [PassResult.state] at ht0
      exact ⟨t0 ++ t1, by rw [ht1, ht0, List.append_assoc]⟩

theorem run_loop_cancel_stop (f : ScrapeFilter) (c : Nat → Bool)
    (src : Nat → List XHSPost) (k : Nat) (st : ScrapeState) (fuel : Nat)
    (h : c k = true) :
    run_loop f c src k st (fuel + 1) = some st := by
  unfold run_loop
  by_cases hq : f.max_posts ≤ st.filtered_posts.length
  · rw [scrape_pass_quota_stop f (c k) (src k) st hq]
  · rw [h, scrape_pass_cancel_stop f (src k) st hq]

theorem search_and_scrape_eq (f : ScrapeFilter) (c : Nat → Bool)
    (bs : List (List XHSPost)) (out : ScrapeState)
    (h : run_loop f c (source_of bs) 0 {} (bs.length + 3) = some out) :
    search_and_scrape f c bs = out.filtered_posts := by
  simp only [search_and_scrape, h]

/-! Deduplication lemmas used to characterise the accepted list. -/

theorem seen_after_nil (seen : List String) : seen_after seen [] = seen := rfl

theorem dedup_go_append (l1 : List XHSPost) :
    ∀ (seen : List String) (l2 : List XHSPost),
      dedup_go seen (l1 ++ l2) =
        dedup_go seen l1 ++ dedup_go (seen_after seen l1) l2 := by
  induction l1 with
  | nil => intro seen l2; simp [dedup_go, seen_after]
  | cons p rest ih =>
    intro seen l2
    by_cases h : seen.contains p.note_id
    · simp only [List.cons_append, dedup_go, seen_after, h, if_true]
      exact ih seen l2
    · rw [Bool.not_eq_true] at h
      simp only [List.cons_append, dedup_go, seen_after, h,
        Bool.false_eq_true, if_false, List.cons_append, List.append_eq]
      rw [ih (p.note_id :: seen) l2]

theorem seen_after_append (l1 : List XHSPost) :
    ∀ (seen : List String) (l2 : List XHSPost),
      seen_after seen (l1 ++ l2) = seen_after (seen_after seen l1) l2 := by
  induction l1 with
  | nil => intro seen l2; simp [seen_after]
  | cons p rest ih =>
    intro seen l2
    by_cases h : seen.contains p.note_id
    · simp only [List.cons_append, seen_after, h, if_true]
      exact ih seen l2
    · rw [Bool.not_eq_true] at h
      simp only [List.cons_append, seen_after, h, Bool.false_eq_true, if_false]
      exact ih (p.note_id :: seen) l2

theorem flatten_drop_eq {α : Type} (bs : List (List α)) :
    ∀ k, (bs.drop k).flatten = bs.getD k [] ++ (bs.drop (k + 1)).flatten := by
  induction bs with
  | nil => intro k; simp [List.getD]
  | cons b rest ih =>
    intro k
    cases k with
    | zero => simp
    | succ k1 =>
      simp only [List.drop_succ_cons, List.getD_cons_succ]
      exact ih k1

/-- Closed-form characterisation of the inner card loop: it consumes a prefix
of the batch (the whole batch unless the quota break fires), the accepted list
grows by exactly the new-to-this-task candidates of that prefix that pass the
filter, in order, the seen set is threaded through that prefix, and the break
can only have fired with the accepted list exactly at the quota. -/
theorem process_cards_spec (f : ScrapeFilter) :
    ∀ (b : List XHSPost) (st : ScrapeState),
      st.filtered_posts.length < f.max_posts →
      ∃ consumed rest : List XHSPost,
        b = consumed ++ rest ∧
        (process_cards f st b).filtered_posts =
          st.filtered_posts ++
            (dedup_go st.seen_note_ids consumed).filter (passes_filter f) ∧
        (process_cards f st b).seen_note_ids =
          seen_after st.seen_note_ids consumed ∧
        (rest ≠ [] →
          (process_cards f st b).filtered_posts.length = f.max_posts) := by
  intro b
  induction b with
  | nil =>
    intro st h
    refine ⟨[], [], by simp, ?_, ?_, ?_⟩
    · simp [process_cards_nil, dedup_go]
    · simp [process_cards_nil, seen_after]
    · simp
  | cons item rest0 ih =>
    intro st h
    by_cases hseen : st.seen_note_ids.contains item.note_id
    · obtain ⟨c0, r0, hb, hf, hs, hq⟩ := ih st h
      refine ⟨item :: c0, r0, ?_, ?_, ?_, ?_⟩
      · rw [List.cons_append, ← hb]
      · rw [process_cards_seen f st item rest0 hseen, hf]
        simp [dedup_go, hseen, contains_true_mem hseen]
      · rw [process_cards_seen f st item rest0 hseen, hs]
        simp [seen_after, hseen, contains_true_mem hseen]
      · rw [process_cards_seen f st item rest0 hseen]
        exact hq
    · rw [Bool.not_eq_true] at hseen
      by_cases hvid : (f.skip_videos && item.is_video) = true
      · obtain ⟨c0, r0, hb, hf, hs, hq⟩ := ih
          { filtered_posts := st.filtered_posts
            seen_note_ids := item.note_id :: st.seen_note_ids
            total_scanned := st.total_scanned + 1
            videos_skipped := st.videos_skipped + 1
            likes_filtered := st.likes_filtered
            scroll_count := st.scroll_count
            no_new_posts_count := st.no_new_posts_count
            new_posts_this_scroll := st.new_posts_this_scroll + 1 } h
        refine ⟨item :: c0, r0, ?_, ?_, ?_, ?_⟩
        · rw [List.cons_append, ← hb]
        · simp only [process_cards, hseen, Bool.false_eq_true, if_false,
            hvid, if_true]
          rw [hf]
          simp [dedup_go, contains_false_not_mem hseen, passes_filter, hvid]
        · simp only [process_cards, hseen, Bool.false_eq_true, if_false,
            hvid, if_true]
          rw [hs]
          simp [seen_after, contains_false_not_mem hseen]
        · simp only [process_cards, hseen, Bool.false_eq_true, if_false,
            hvid, if_true]
          exact hq
      · by_cases hlow : item.likes < f.min_likes
        · obtain ⟨c0, r0, hb, hf, hs, hq⟩ := ih
            { filtered_posts := st.filtered_posts
              seen_note_ids := item.note_id :: st.seen_note_ids
              total_scanned := st.total_scanned + 1
              videos_skipped := st.videos_skipped
              likes_filtered := st.likes_filtered + 1
              scroll_count := st.scroll_count
              no_new_posts_count := st.no_new_posts_count
              new_posts_this_scroll := st.new_posts_this_scroll + 1 } h
          refine ⟨item :: c0, r0, ?_, ?_, ?_, ?_⟩
          · rw [List.cons_append, ← hb]
          · simp only [process_cards, hseen, Bool.false_eq_true, if_false,
              hvid, hlow, if_true]
            rw [hf]
            simp [dedup_go, contains_false_not_mem hseen, passes_filter, hvid,
              hlow]
          · simp only [process_cards, hseen, Bool.false_eq_true, if_false,
              hvid, hlow, if_true]
            rw [hs]
            simp [seen_after, contains_false_not_mem hseen]
          · simp only [process_cards, hseen, Bool.false_eq_true, if_false,
              hvid, hlow, if_true]
            exact hq
        · have hpass : passes_filter f item = true := by
            simp [passes_filter, hvid, hlow]
          by_cases hq1 : f.max_posts ≤ st.filtered_posts.length + 1
          · refine ⟨[item], rest0, rfl, ?_, ?_, ?_⟩
            · simp only [process_cards, hseen, Bool.false_eq_true, if_false,
                hvid, hlow, List.length_append, List.length_cons,
                List.length_nil, Nat.zero_add, hq1, if_true]
              simp [dedup_go, contains_false_not_mem hseen, hpass]
            · simp only [process_cards, hseen, Bool.false_eq_true, if_false,
                hvid, hlow, List.length_append, List.length_cons,
                List.length_nil, Nat.zero_add, hq1, if_true]
              simp [seen_after, contains_false_not_mem hseen]
            · intro _
              simp only [process_cards, hseen, Bool.false_eq_true, if_false,
                hvid, hlow, List.length_append, List.length_cons,
                List.length_nil, Nat.zero_add, hq1, if_true]
              omega
          · obtain ⟨c0, r0, hb, hf, hs, hq⟩ := ih
              { filtered_posts := st.filtered_posts ++ [item]
                seen_note_ids := item.note_id :: st.seen_note_ids
                total_scanned := st.total_scanned + 1
                videos_skipped := st.videos_skipped
                likes_filtered := st.likes_filtered
                scroll_count := st.scroll_count
                no_new_posts_count := st.no_new_posts_count
                new_posts_this_scroll := st.new_posts_this_scroll + 1 }
              (by
                simp only [List.length_append, List.length_cons,
                  List.length_nil, Nat.zero_add]
                omega)
            refine ⟨item :: c0, r0, ?_, ?_, ?_, ?_⟩
            · rw [List.cons_append, ← hb]
            · simp only [process_cards, hseen, Bool.false_eq_true, if_false,
                hvid, hlow, List.length_append, List.length_cons,
                List.length_nil, Nat.zero_add, hq1, if_false]
              rw [hf]
              simp [dedup_go, contains_false_not_mem hseen, hpass,
                List.append_assoc]
            · simp only [process_cards, hseen, Bool.false_eq_true, if_false,
                hvid, hlow, List.length_append, List.length_cons,
                List.length_nil, Nat.zero_add, hq1, if_false]
              rw [hs]
              simp [seen_after, contains_false_not_mem hseen]
            · simp only [process_cards, hseen, Bool.false_eq_true, if_false,
                hvid, hlow, List.length_append, List.length_cons,
                List.length_nil, Nat.zero_add, hq1, if_false]
              exact hq

/-- Loop-level characterisation over a finite batch source: any successful run
consumes a prefix of the flattened remaining batch stream, and the accepted
list grows by exactly the filter-passing members of the deduplicated consumed
prefix, in discovery order. -/
theorem run_loop_spec (f : ScrapeFilter) (c : Nat → Bool)
    (bs : List (List XHSPost)) :
    ∀ (fuel k : Nat) (st out : ScrapeState),
      run_loop f c (source_of bs) k st fuel = some out →
      ∃ consumed tail : List XHSPost,
        (bs.drop k).flatten = consumed ++ tail ∧
        out.filtered_posts =
          st.filtered_posts ++
            (dedup_go st.seen_note_ids consumed).filter (passes_filter f) := by
  intro fuel
  induction fuel with
  | zero => intro k st out hrun; simp [run_loop] at hrun
  | succ n ih =>
    intro k st out hrun
    unfold run_loop at hrun
    by_cases hq : f.max_posts ≤ st.filtered_posts.length
    · rw [scrape_pass_quota_stop f (c k) (source_of bs k) st hq] at hrun
      simp only [Option.some.injEq] at hrun
      exact ⟨[], (bs.drop k).flatten, by simp, by simp [dedup_go, ← hrun]⟩
    · by_cases hc : c k = true
      · rw [hc, scrape_pass_cancel_stop f (source_of bs k) st hq] at hrun
        simp only [Option.some.injEq] at hrun
        exact ⟨[], (bs.drop k).flatten, by simp, by simp [dedup_go, ← hrun]⟩
      · rw [Bool.not_eq_true] at hc
        have hlt := Nat.lt_of_not_le hq
        obtain ⟨c0, r0, hb, hf, hs, hquota⟩ :=
          process_cards_spec f (source_of bs k)
            { st with new_posts_this_scroll := 0 } hlt
        have hsplit : (bs.drop k).flatten =
            source_of bs k ++ (bs.drop (k + 1)).flatten :=
          flatten_drop_eq bs k
        simp only [scrape_pass, hq, if_false, hc, Bool.false_eq_true] at hrun
        by_cases h1 : f.max_posts ≤
            (process_cards f { st with new_posts_this_scroll := 0 }
              (source_of bs k)).filtered_posts.length
        · simp only [h1, if_true, Option.some.injEq] at hrun
          refine ⟨c0, r0 ++ (bs.drop (k + 1)).flatten, ?_, ?_⟩
          · rw [hsplit, hb, List.append_assoc]
          · rw [← hrun, hf]
        · simp only [h1, if_false] at hrun
          have hr0 : r0 = [] := by
            by_contra hne
            exact h1 (le_of_eq (hquota hne).symm)
          rw [hr0, List.append_nil] at hb
          by_cases h2 : (process_cards f { st with new_posts_this_scroll := 0 }
              (source_of bs k)).new_posts_this_scroll = 0
          · simp only [h2, if_true] at hrun
            by_cases h3 : max_no_new_posts ≤
                (process_cards f { st with new_posts_this_scroll := 0 }
                  (source_of bs k)).no_new_posts_count + 1
            · simp only [h3, if_true, Option.some.injEq] at hrun
              refine ⟨c0, (bs.drop (k + 1)).flatten, ?_, ?_⟩
              · rw [hsplit, hb]
              · rw [← hrun]
                exact hf
            · simp only [h3, if_false] at hrun
              obtain ⟨c2, t2, hsp2, hf2⟩ := ih (k + 1) _ out hrun
              refine ⟨c0 ++ c2, t2, ?_, ?_⟩
              · rw [hsplit, hb, hsp2, List.append_assoc]
              · rw [hf2]
                simp only [hf, hs]
                rw [← hb, dedup_go_append, List.filter_append]
                simp [List.append_assoc]
          · simp only [h2, if_false] at hrun
            obtain ⟨c2, t2, hsp2, hf2⟩ := ih (k + 1) _ out hrun
            refine ⟨c0 ++ c2, t2, ?_, ?_⟩
            · rw [hsplit, hb, hsp2, List.append_assoc]
            · rw [hf2]
              simp only [hf, hs]
              rw [← hb, dedup_go_append, List.filter_append]
              simp [List.append_assoc]

/-! Termination of the loop over finite, non-growing sources. -/

theorem source_of_nil (bs : List (List XHSPost)) :
    ∀ j, bs.length ≤ j → source_of bs j = [] := by
  induction bs with
  | nil => intro j h; simp [source_of]
  | cons b rest ih =>
    intro j h
    cases j with
    | zero => simp at h
    | succ j1 =>
      simp only [source_of, List.getD_cons_succ]
      exact ih j1 (by simpa using h)

/-- Once every remaining pass shows an empty batch, the loop stops within the
stale-pass budget: with fuel n at least 1 and the stale counter within n of the
threshold, the loop reaches a stop. -/
theorem run_loop_stops_on_empty (f : ScrapeFilter) (c : Nat → Bool)
    (src : Nat → List XHSPost) :
    ∀ (n k : Nat) (st : ScrapeState), 1 ≤ n →
      max_no_new_posts ≤ st.no_new_posts_count + n →
      (∀ j, k ≤ j → src j = []) →
      ∃ out, run_loop f c src k st n = some out := by
  intro n
  induction n with
  | zero => intro k st h1; omega
  | succ n ih =>
    intro k st _ h3 hsrc
    by_cases hq : f.max_posts ≤ st.filtered_posts.length
    · exact ⟨st, by
        unfold run_loop
        rw [hsrc k (Nat.le_refl k), scrape_pass_quota_stop f (c k) [] st hq]⟩
    · by_cases hc : c k = true
      · exact ⟨st, by
          unfold run_loop
          rw [hsrc k (Nat.le_refl k), hc, scrape_pass_cancel_stop f [] st hq]⟩
      · rw [Bool.not_eq_true] at hc
        unfold run_loop
        rw [hsrc k (Nat.le_refl k)]
        simp only [scrape_pass, hq, if_false, hc, Bool.false_eq_true,
          process_cards_nil]
        by_cases h3a : max_no_new_posts ≤ st.no_new_posts_count + 1
        · simp only [h3a, if_true]
          exact ⟨_, rfl⟩
        · simp only [h3a, if_false]
          have hn : 1 ≤ n := by
            unfold max_no_new_posts at h3 h3a
            omega
          refine ih (k + 1) _ hn ?_ (fun j hj => hsrc j (by omega))
          unfold max_no_new_posts at h3 h3a ⊢
          simp only
          omega

theorem run_loop_total_aux (f : ScrapeFilter) (c : Nat → Bool)
    (bs : List (List XHSPost)) :
    ∀ (m k : Nat) (st : ScrapeState), bs.length ≤ k + m →
      ∃ out, run_loop f c (source_of bs) k st (m + 3) = some out := by
  intro m
  induction m with
  | zero =>
    intro k st h
    exact run_loop_stops_on_empty f c (source_of bs) 3 k st (by omega)
      (by unfold max_no_new_posts; omega)
      (fun j hj => source_of_nil bs j (by omega))
  | succ m ih =>
    intro k st h
    cases hp : scrape_pass f (c k) (source_of bs k) st with
    | stop out =>
      exact ⟨out, by unfold run_loop; rw [hp]⟩
    | next st1 =>
      obtain ⟨out, hout⟩ := ih (k + 1) st1 (by omega)
      exact ⟨out, by unfold run_loop; rw [hp]; exact hout⟩

/-- The loop always terminates on a finite batch source, within the length of
the source plus the stale-pass threshold. -/
theorem run_loop_total (f : ScrapeFilter) (c : Nat → Bool)
    (bs : List (List XHSPost)) :
    ∃ out, run_loop f c (source_of bs) 0 {} (bs.length + 3) = some out :=
  run_loop_total_aux f c bs bs.length 0 {} (by omega)

/-! Remaining helper lemmas for the claim theorems. -/

theorem deliver_logs_ok (msg : String) :
    ∀ cbs : List LogCallback,
      deliver_logs msg cbs =
        PyResult.ok
          ((cbs.filter (fun cb => !cb.fails)).map (fun cb => (cb.cb_id, msg))) := by
  intro cbs
  induction cbs with
  | nil => rfl
  | cons cb rest ih =>
    by_cases hf : cb.fails = true
    · simp [deliver_logs, call_log_callback, hf, ih]
    · rw [Bool.not_eq_true] at hf
      simp [deliver_logs, call_log_callback, hf, ih]

theorem open_browser_contexts (accounts : List Nat) (launch : LaunchOutcome)
    (m : BrowserManager) (a : Nat) :
    (open_browser accounts launch m a).manager.contexts = m.contexts ∨
    ∃ ctx, (open_browser accounts launch m a).manager.contexts =
      alist_set m.contexts a ctx := by
  cases hp : m.playwright_started
  all_goals
    by_cases h1 : (alist_get m.contexts a).isSome = true
  all_goals
    by_cases h2 : a ∈ accounts
  all_goals
    cases launch with
    | failure => left; simp [open_browser, hp, h1, h2]
    | success ctx page =>
      first
      | (left; simp [open_browser, hp, h1, h2]; done)
      | (right; exact ⟨ctx, by simp [open_browser, hp, h1, h2]⟩)

theorem process_cards_no_new_const (f : ScrapeFilter) (b : List XHSPost) :
    ∀ st : ScrapeState,
      (process_cards f st b).no_new_posts_count = st.no_new_posts_count := by
  induction b with
  | nil => intro st; rfl
  | cons item rest ih =>
    intro st
    by_cases hseen : st.seen_note_ids.contains item.note_id
    · rw [process_cards_seen f st item rest hseen]
      exact ih st
    · rw [Bool.not_eq_true] at hseen
      by_cases hvid : (f.skip_videos && item.is_video) = true
      · simp only [process_cards, hseen, Bool.false_eq_true, if_false, hvid,
          if_true]
        exact ih _
      · by_cases hlow : item.likes < f.min_likes
        · simp only [process_cards, hseen, Bool.false_eq_true, if_false, hvid,
            hlow, if_true]
          exact ih _
        · by_cases hq : f.max_posts ≤ st.filtered_posts.length + 1
          · simp only [process_cards, hseen, Bool.false_eq_true, if_false,
              hvid, hlow, List.length_append, List.length_cons,
              List.length_nil, Nat.zero_add, hq, if_true]
          · simp only [process_cards, hseen, Bool.false_eq_true, if_false,
              hvid, hlow, List.length_append, List.length_cons,
              List.length_nil, Nat.zero_add, hq, if_false]
            exact ih _

/-! Claim theorems. -/

/-- C1: for every account id, a second open_browser call while a session for
that account is live returns failure and leaves the contexts and pages maps
unchanged, and open_browser preserves key-uniqueness of the context map, so
the live-session map never holds two sessions for one account. -/
theorem claim_C1_single_session_per_account (accounts : List Nat)
    (launch : LaunchOutcome) (m : BrowserManager) (a : Nat)
    (h : (alist_get m.contexts a).isSome = true) :
    ((open_browser accounts launch m a).returned = false ∧
     (open_browser accounts launch m a).manager.contexts = m.contexts ∧
     (open_browser accounts launch m a).manager.pages = m.pages) ∧
    ∀ (accounts2 : List Nat) (launch2 : LaunchOutcome) (m2 : BrowserManager)
      (a2 : Nat),
      (m2.contexts.map Prod.fst).Nodup →
      ((open_browser accounts2 launch2 m2 a2).manager.contexts.map
        Prod.fst).Nodup := by
  constructor
  · cases hp : m.playwright_started
    · constructor
      · simp [open_browser, hp, h]
      · constructor
        · simp [open_browser, hp, h]
        · simp [open_browser, hp, h]
    · constructor
      · simp [open_browser, hp, h]
      · constructor
        · simp [open_browser, hp, h]
        · simp [open_browser, hp, h]
  · intro accounts2 launch2 m2 a2 hnd
    rcases open_browser_contexts accounts2 launch2 m2 a2 with heq | ⟨ctx, heq⟩
    · rw [heq]; exact hnd
    · rw [heq]; exact alist_set_keys_nodup m2.contexts a2 ctx hnd

/-- C1 witness: a concrete second open on account 1, which already has a live
session, is rejected. -/
theorem claim_C1_witness :
    (open_browser [1] (LaunchOutcome.success 30 40) one_session_manager
        1).returned = false ∧
    (open_browser [1] (LaunchOutcome.success 30 40) one_session_manager
        1).manager.contexts = one_session_manager.contexts :=
  ⟨(claim_C1_single_session_per_account [1] (LaunchOutcome.success 30 40)
      one_session_manager 1 (by decide)).1.1,
   (claim_C1_single_session_per_account [1] (LaunchOutcome.success 30 40)
      one_session_manager 1 (by decide)).1.2.1⟩

/-- C2 counterexample: the claim states that requesting cancellation only sets
the cancel flag and never preempts an in-flight operation. On a registry whose
task t1 has an attached, not-yet-done asyncio task, cancel_scrape (lines 77 to
78 of scrape_manager.py) additionally invokes cancel on that asyncio task,
which injects CancelledError at its next await point and thereby preempts any
in-flight page operation, so the claim as stated is false. -/
theorem claim_C2_counterexample :
    (cancel_scrape live_registry "t1").returned = true ∧
    (cancel_scrape live_registry "t1").issued_task_cancel = true := by
  decide

/-- C2 amended: cancel_scrape on a known task sets the cancel_requested flag
and in addition invokes cancel on the attached asyncio task exactly when one
is attached and not yet done (which can preempt an in-flight page operation);
the extractor loop itself consults the flag only at the iteration boundary and
stops there with the accumulated state untouched, never mid-batch. -/
theorem claim_C2_cancel_sets_flag_and_cancels_task (m : ScrapeManager)
    (tid : String) (s : ActiveScrape)
    (h : alist_get m.active_scrapes tid = some s) :
    ((cancel_scrape m tid).returned = true ∧
     alist_get (cancel_scrape m tid).manager.active_scrapes tid =
       some { s with cancel_requested := true } ∧
     (cancel_scrape m tid).issued_task_cancel =
       (s.has_asyncio_task && !s.asyncio_task_done)) ∧
    (∀ (f : ScrapeFilter) (c : Nat → Bool) (src : Nat → List XHSPost)
       (k fuel : Nat) (st : ScrapeState),
      c k = true → run_loop f c src k st (fuel + 1) = some st) := by
  constructor
  · unfold cancel_scrape
    rw [h]
    refine ⟨rfl, ?_, rfl⟩
    exact alist_get_set_self m.active_scrapes tid _
  · intro f c src k fuel st hck
    exact run_loop_cancel_stop f c src k st fuel hck

/-- C2 witness: the amended statement applied to the concrete live registry. -/
theorem claim_C2_witness :
    (cancel_scrape live_registry "t1").issued_task_cancel =
      (true && !false) ∧
    run_loop scenB_filters (fun _ => true) (source_of scenB_batches) 0
      { no_new_posts_count := 2 } 1 =
      some { no_new_posts_count := 2 } := by
  have h := claim_C2_cancel_sets_flag_and_cancels_task live_registry "t1"
    { task_id := "t1", account_id := 1, keyword := "kw", status := "running",
      has_asyncio_task := true, asyncio_task_done := false } (by decide)
  exact ⟨h.1.2.2, h.2 scenB_filters (fun _ => true) (source_of scenB_batches)
    0 0 { no_new_posts_count := 2 } (by decide)⟩

/-- C3 counterexample: the claim states that creating a task under an existing
task_id fails and does not replace the existing task. On a registry already
holding task t1 with keyword old and one registered callback, create_scrape
(lines 43 to 59 of scrape_manager.py) performs no duplicate check: the stored
task now carries the new keyword and the callback list is reset to empty, so
the existing task was replaced, not protected. -/
theorem claim_C3_counterexample :
    (alist_get (create_scrape dup_registry "t1" 8 "new" "ts").1.active_scrapes
        "t1").map ActiveScrape.keyword = some "new" ∧
    alist_get (create_scrape dup_registry "t1" 8 "new" "ts").1.log_callbacks
        "t1" = some [] := by
  decide

/-- C3 amended: create_scrape performs no duplicate check; it unconditionally
stores the freshly built task under task_id (replacing any existing entry) and
resets the callback list for that id to empty. The created task has status
running, cancel_requested false, and no attached asyncio task. -/
theorem claim_C3_create_initialises_running_task (m : ScrapeManager)
    (tid : String) (acct : Nat) (kw ts : String) :
    alist_get (create_scrape m tid acct kw ts).1.active_scrapes tid =
      some (create_scrape m tid acct kw ts).2 ∧
    (create_scrape m tid acct kw ts).2.status = "running" ∧
    (create_scrape m tid acct kw ts).2.cancel_requested = false ∧
    (create_scrape m tid acct kw ts).2.has_asyncio_task = false ∧
    alist_get (create_scrape m tid acct kw ts).1.log_callbacks tid =
      some [] := by
  unfold create_scrape
  refine ⟨?_, rfl, rfl, rfl, ?_⟩
  · exact alist_get_set_self m.active_scrapes tid _
  · exact alist_get_set_self m.log_callbacks tid _

/-- C9: close_browser is total and idempotent. With no tracked session for the
account it returns false and leaves the state untouched. With a tracked
session it returns true, takes the forced OS-level kill path exactly when the
graceful close did not finish in time (timeout or error), and on every path
removes the context and page entries for the account before returning. All
failure branches are caught inside, so the embedded function is total. -/
theorem claim_C9_close_idempotent_total (outcome : CloseOutcome)
    (db_ok : Bool) (m : BrowserManager) (a : Nat) :
    (alist_get m.contexts a = none →
      close_browser outcome db_ok m a =
        { manager := m, returned := false, force_killed := false }) ∧
    ((alist_get m.contexts a).isSome = true →
      (close_browser outcome db_ok m a).returned = true ∧
      alist_get (close_browser outcome db_ok m a).manager.contexts a = none ∧
      alist_get (close_browser outcome db_ok m a).manager.pages a = none ∧
      ((close_browser outcome db_ok m a).force_killed = true ↔
        outcome ≠ CloseOutcome.graceful)) := by
  constructor
  · intro h
    unfold close_browser
    simp [h]
  · intro h
    unfold close_browser track_browser_close
    cases hdb : db_ok <;> cases outcome <;>
      simp [h, alist_get_del_self]

/-- C9 witness: closing account 7 with no session is a no-op returning false;
closing account 7 of a manager holding its session under a timed-out graceful
close returns true via the forced-kill path and removes the session. -/
theorem claim_C9_witness :
    close_browser CloseOutcome.graceful true empty_browser_manager 7 =
      { manager := empty_browser_manager, returned := false,
        force_killed := false } ∧
    (close_browser CloseOutcome.timedOut true
      { contexts := [(7, 1)], pages := [(7, 2)], session_ids := [(7, 3)],
        playwright_started := true } 7).returned = true := by
  refine ⟨(claim_C9_close_idempotent_total CloseOutcome.graceful true
    empty_browser_manager 7).1 (by decide), ?_⟩
  exact ((claim_C9_close_idempotent_total CloseOutcome.timedOut true
    { contexts := [(7, 1)], pages := [(7, 2)], session_ids := [(7, 3)],
      playwright_started := true } 7).2 (by decide)).1

/-- C10: delivery of a log message is isolated per subscriber. When task_id
has a registered callback list, send_log invokes every callback in
registration order inside its own try-except: the callbacks that do not raise
all receive the message, in order, independently of any raising callback, and
send_log itself returns normally rather than propagating the exception. -/
theorem claim_C10_log_delivery_isolated (m : ScrapeManager) (tid msg : String)
    (cbs : List LogCallback) (h : alist_get m.log_callbacks tid = some cbs) :
    send_log m tid msg =
      PyResult.ok
        ((cbs.filter (fun cb => !cb.fails)).map (fun cb => (cb.cb_id, msg))) := by
  unfold send_log
  rw [h]
  exact deliver_logs_ok msg cbs

/-- C10 witness: three callbacks with the middle one raising; callbacks 1 and
3 still receive the message and send_log returns normally. -/
theorem claim_C10_witness :
    send_log cb_registry "t1" "hello" =
      PyResult.ok [(1, "hello"), (3, "hello")] := by
  have h := claim_C10_log_delivery_isolated cb_registry "t1" "hello"
    [{ cb_id := 1 }, { cb_id := 2, fails := true }, { cb_id := 3 }] (by decide)
  simpa using h

/-- C4 counterexample: the claim states that the loop returns the pair
(accepted, total_scanned) on every exit path. search_and_scrape (line 536 of
xiaohongshu_scraper.py) returns only the accepted list: two runs that scan a
different number of candidates (2 versus 0, every candidate rejected by the
likes filter) produce identical return values, so the returned value cannot
carry total_scanned; the scanned count reaches the caller only through the
progress log. -/
theorem claim_C4_counterexample :
    search_and_scrape pairX_filters no_cancel pairX_batches =
      search_and_scrape pairX_filters no_cancel [] ∧
    (run_loop pairX_filters no_cancel (source_of pairX_batches) 0 {}
        (pairX_batches.length + 3)).map ScrapeState.total_scanned ≠
      (run_loop pairX_filters no_cancel
        (source_of ([] : List (List XHSPost))) 0 {} 3).map
        ScrapeState.total_scanned := by
  decide

/-- C4 amended: the loop returns the accepted list alone on every exit path
(quota, exhaustion, or cancellation); total_scanned is reported only through
the progress log. A cancellation observed at the pass boundary stops the loop
with the accumulated state returned untouched, and the accepted list only ever
grows during a run, so items accepted before a cancellation are never lost
from the returned value. -/
theorem claim_C4_returns_accepted_on_every_path (f : ScrapeFilter)
    (c : Nat → Bool) (bs : List (List XHSPost)) :
    (∀ out, run_loop f c (source_of bs) 0 {} (bs.length + 3) = some out →
      search_and_scrape f c bs = out.filtered_posts) ∧
    (∀ (src : Nat → List XHSPost) (k : Nat) (st : ScrapeState) (fuel : Nat),
      c k = true → run_loop f c src k st (fuel + 1) = some st) ∧
    (∀ (src : Nat → List XHSPost) (fuel k : Nat) (st out : ScrapeState),
      run_loop f c src k st fuel = some out →
      ∃ t, out.filtered_posts = st.filtered_posts ++ t) :=
  ⟨fun out h => search_and_scrape_eq f c bs out h,
   fun src k st fuel h => run_loop_cancel_stop f c src k st fuel h,
   fun src fuel k st out h => run_loop_filtered_mono f c src fuel k st out h⟩

/-- C4 witness: cancellation visible at the first boundary returns the
accumulated (initial) state unchanged. -/
theorem claim_C4_witness :
    run_loop pairX_filters (fun _ => true) (source_of pairX_batches) 0 {} 5 =
      some {} :=
  (claim_C4_returns_accepted_on_every_path pairX_filters (fun _ => true)
    pairX_batches).2.1 (source_of pairX_batches) 0 {} 4 rfl

/-- C5: the accepted list never exceeds the quota. The inner loop maps any
state strictly below the quota to a state at most at the quota; a pass whose
state has already reached the quota stops immediately with the state
untouched, accepting nothing further; the bound is preserved by any number of
loop iterations; and the value returned by search_and_scrape is never longer
than max_posts. -/
theorem claim_C5_accepted_never_exceeds_quota :
    (∀ (f : ScrapeFilter) (st : ScrapeState) (b : List XHSPost),
      st.filtered_posts.length < f.max_posts →
      (process_cards f st b).filtered_posts.length ≤ f.max_posts) ∧
    (∀ (f : ScrapeFilter) (c1 : Bool) (b : List XHSPost) (st : ScrapeState),
      f.max_posts ≤ st.filtered_posts.length →
      scrape_pass f c1 b st = PassResult.stop st) ∧
    (∀ (f : ScrapeFilter) (c : Nat → Bool) (src : Nat → List XHSPost)
       (fuel k : Nat) (st out : ScrapeState),
      st.filtered_posts.length ≤ f.max_posts →
      run_loop f c src k st fuel = some out →
      out.filtered_posts.length ≤ f.max_posts) ∧
    (∀ (f : ScrapeFilter) (c : Nat → Bool) (bs : List (List XHSPost)),
      (search_and_scrape f c bs).length ≤ f.max_posts) := by
  refine ⟨?_, ?_, ?_, ?_⟩
  · exact fun f st b h => process_cards_length_le f b st h
  · exact fun f c1 b st h => scrape_pass_quota_stop f c1 b st h
  · exact fun f c src fuel k st out h hrun =>
      run_loop_length_le f c src fuel k st out h hrun
  · intro f c bs
    obtain ⟨out, hout⟩ := run_loop_total f c bs
    rw [search_and_scrape_eq f c bs out hout]
    exact run_loop_length_le f c (source_of bs) (bs.length + 3) 0 {} out
      (Nat.zero_le _) hout

/-- C5 witness: scenario B respects its quota of 3. -/
theorem claim_C5_witness :
    (process_cards scenB_filters {}
      (scenB_batches.getD 0 [])).filtered_posts.length ≤
        scenB_filters.max_posts ∧
    (search_and_scrape scenB_filters no_cancel scenB_batches).length ≤
      scenB_filters.max_posts :=
  ⟨claim_C5_accepted_never_exceeds_quota.1 scenB_filters {}
      (scenB_batches.getD 0 []) (by decide),
   claim_C5_accepted_never_exceeds_quota.2.2.2 scenB_filters no_cancel
     scenB_batches⟩

/-- C6: within one execution every accepted note id is unique, and processing
an already-seen id is a complete no-op for the whole state, so it is neither
re-counted in total_scanned nor appended to the accepted list again; the
seen set persists for the whole execution because it is threaded through every
pass of the loop. -/
theorem claim_C6_accepted_ids_unique :
    (∀ (f : ScrapeFilter) (c : Nat → Bool) (bs : List (List XHSPost)),
      ((search_and_scrape f c bs).map XHSPost.note_id).Nodup) ∧
    (∀ (f : ScrapeFilter) (st : ScrapeState) (item : XHSPost)
       (rest : List XHSPost),
      st.seen_note_ids.contains item.note_id = true →
      process_cards f st (item :: rest) = process_cards f st rest) := by
  constructor
  · intro f c bs
    obtain ⟨out, hout⟩ := run_loop_total f c bs
    rw [search_and_scrape_eq f c bs out hout]
    exact (run_loop_wf f c (source_of bs) (bs.length + 3) 0 {} out
      ⟨by simp, by intro p hp; simp at hp⟩ hout).1
  · exact fun f st item rest h => process_cards_seen f st item rest h

/-- C6 witness: scenario B output ids are pairwise distinct, and a repeated id
is skipped entirely. -/
theorem claim_C6_witness :
    ((search_and_scrape scenB_filters no_cancel scenB_batches).map
      XHSPost.note_id).Nodup ∧
    process_cards scenB_filters { seen_note_ids := ["a"] }
      [{ note_id := "a", likes := 500 }] = { seen_note_ids := ["a"] } := by
  refine ⟨claim_C6_accepted_ids_unique.1 scenB_filters no_cancel
    scenB_batches, ?_⟩
  have h2 := claim_C6_accepted_ids_unique.2 scenB_filters
    { seen_note_ids := ["a"] } { note_id := "a", likes := 500 } [] (by decide)
  simpa [process_cards_nil] using h2

/-- C7: for every finite batch source and cancel predicate, the accepted list
of a finished run is a prefix of the filter-passing members, in discovery
order, of the first-occurrence deduplication of the whole candidate stream; it
never exceeds max_posts, and when the quota is reached it equals exactly the
first max_posts such candidates. Every newly seen candidate is counted in
total_scanned exactly once, as accepted, video-skipped, or low-likes, so
rejected candidates increment total_scanned but never count toward the
quota. -/
theorem claim_C7_filter_semantics (f : ScrapeFilter) (c : Nat → Bool)
    (bs : List (List XHSPost)) (fuel : Nat) (out : ScrapeState)
    (h : run_loop f c (source_of bs) 0 {} fuel = some out) :
    (∃ t, (dedup_by_id bs.flatten).filter (passes_filter f) =
      out.filtered_posts ++ t) ∧
    out.filtered_posts.length ≤ f.max_posts ∧
    (out.filtered_posts.length = f.max_posts →
      out.filtered_posts =
        ((dedup_by_id bs.flatten).filter (passes_filter f)).take
          f.max_posts) ∧
    out.total_scanned =
      out.filtered_posts.length + out.videos_skipped + out.likes_filtered := by
  obtain ⟨consumed, tail, hsp, hf⟩ := run_loop_spec f c bs fuel 0 {} out h
  have hsp0 : bs.flatten = consumed ++ tail := by simpa using hsp
  have hf0 : out.filtered_posts =
      (dedup_go [] consumed).filter (passes_filter f) := by simpa using hf
  have hkey : (dedup_by_id bs.flatten).filter (passes_filter f) =
      out.filtered_posts ++
        (dedup_go (seen_after [] consumed) tail).filter (passes_filter f) := by
    rw [dedup_by_id, hsp0, dedup_go_append, List.filter_append, hf0]
  refine ⟨⟨_, hkey⟩, ?_, ?_, ?_⟩
  · exact run_loop_length_le f c (source_of bs) fuel 0 {} out
      (Nat.zero_le _) h
  · intro hlen
    rw [hkey, ← hlen]
    exact (List.take_left _ _).symm
  · exact run_loop_accounted f c (source_of bs) fuel 0 {} out rfl h

/-- C7 witness: scenario B of the spec; the accepted list equals the first 3
candidates with likes at least 100 in discovery order, and the accounting
identity holds for its final state. -/
theorem claim_C7_witness :
    scenB_out.filtered_posts =
      ((dedup_by_id scenB_batches.flatten).filter
        (passes_filter scenB_filters)).take scenB_filters.max_posts ∧
    scenB_out.total_scanned =
      scenB_out.filtered_posts.length + scenB_out.videos_skipped +
        scenB_out.likes_filtered := by
  have h := claim_C7_filter_semantics scenB_filters no_cancel scenB_batches 4
    scenB_out (by decide)
  exact ⟨h.2.2.1 (by decide), h.2.2.2⟩

/-- C8: the loop terminates on every finite, non-growing source within the
source length plus the stale-pass threshold of 3; once the source is
exhausted it stops within the threshold many passes from any state; and a
continuing pass updates the stale counter exactly as specified: a pass with
zero newly seen items increments it, a pass with at least one new item resets
it to 0, and a continuing pass is always strictly below the threshold
(reaching the threshold stops the loop instead). -/
theorem claim_C8_stale_pass_termination (f : ScrapeFilter) (c : Nat → Bool)
    (bs : List (List XHSPost)) :
    (∃ out, run_loop f c (source_of bs) 0 {} (bs.length + 3) = some out) ∧
    (∀ (k : Nat) (st : ScrapeState), bs.length ≤ k →
      ∃ out, run_loop f c (source_of bs) k st max_no_new_posts = some out) ∧
    (∀ (b : List XHSPost) (st st1 : ScrapeState),
      scrape_pass f false b st = PassResult.next st1 →
      (st1.new_posts_this_scroll = 0 →
        st1.no_new_posts_count = st.no_new_posts_count + 1) ∧
      (st1.new_posts_this_scroll ≠ 0 → st1.no_new_posts_count = 0) ∧
      st1.no_new_posts_count < max_no_new_posts) := by
  refine ⟨run_loop_total f c bs, ?_, ?_⟩
  · intro k st hk
    exact run_loop_stops_on_empty f c (source_of bs) max_no_new_posts k st
      (by unfold max_no_new_posts; omega)
      (by unfold max_no_new_posts; omega)
      (fun j hj => source_of_nil bs j (by omega))
  · intro b st st1 hp
    simp only [scrape_pass, Bool.false_eq_true, if_false] at hp
    by_cases hq : f.max_posts ≤ st.filtered_posts.length
    · rw [if_pos hq] at hp
      simp at hp
    · simp only [hq, if_false] at hp
      by_cases h1 : f.max_posts ≤
          (process_cards f { st with new_posts_this_scroll := 0 }
            b).filtered_posts.length
      · rw [if_pos h1] at hp
        simp at hp
      · simp only [h1, if_false] at hp
        by_cases h2 : (process_cards f { st with new_posts_this_scroll := 0 }
            b).new_posts_this_scroll = 0
        · simp only [h2, if_true] at hp
          by_cases h3 : max_no_new_posts ≤
              (process_cards f { st with new_posts_this_scroll := 0 }
                b).no_new_posts_count + 1
          · rw [if_pos h3] at hp
            simp at hp
          · simp only [h3, if_false, PassResult.next.injEq] at hp
            subst hp
            have hnn := process_cards_no_new_const f b
              { st with new_posts_this_scroll := 0 }
            refine ⟨?_, ?_, ?_⟩
            · intro _
              show (process_cards f { st with new_posts_this_scroll := 0 }
                b).no_new_posts_count + 1 = st.no_new_posts_count + 1
              rw [hnn]
            · intro hne
              exact absurd rfl hne
            · show (process_cards f { st with new_posts_this_scroll := 0 }
                b).no_new_posts_count + 1 < max_no_new_posts
              unfold max_no_new_posts at h3 ⊢
              omega
        · simp only [h2, if_false, PassResult.next.injEq] at hp
          subst hp
          refine ⟨?_, ?_, ?_⟩
          · intro hz
            have hz2 : (process_cards f
                { st with new_posts_this_scroll := 0 }
                b).new_posts_this_scroll = 0 := hz
            exact absurd hz2 h2
          · intro _
            rfl
          · show (0 : Nat) < max_no_new_posts
            unfold max_no_new_posts
            omega

/-- C8 witness: scenario D shaped source: the loop finishes with fuel
length + 3, and from an exhausted position it stops within the threshold. -/
theorem claim_C8_witness :
    (∃ out, run_loop scenB_filters no_cancel (source_of scenB_batches) 0 {}
      (scenB_batches.length + 3) = some out) ∧
    (∃ out, run_loop scenB_filters no_cancel (source_of scenB_batches) 1 {}
      max_no_new_posts = some out) := by
  have h := claim_C8_stale_pass_termination scenB_filters no_cancel
    scenB_batches
  exact ⟨h.1, h.2.1 1 {} (by decide)⟩

end XHSC
